import Mathlib

/-!
# Account store verification

A shallow embedding of the account-management core of the repository
(`src/utils/storage.ts` together with `src/utils/jwt.ts` and the data
shapes of `src/types/index.ts`), followed by theorems about the
operations `addAccount`, `removeAccount`, `setActiveAccount`,
`switchToAccount`, `getCurrentAuthAccountId`, `syncCurrentAccount` and
`loadAccountsStore`.

Modelling conventions:

* A JavaScript string field that can be `undefined` is modelled as
  `Option String`; a present string may still be empty, and the
  JavaScript truthiness test `if (s)` on strings is rendered by
  comparison with `""`.
* The byte-level base64/JSON decoding of a JWT is out of scope; the
  `id_token` string is modelled by the outcome of decoding it: `none`
  when `decodeJWTPayload` would throw (malformed or empty token) and
  `some payload` when it yields a JSON payload.
* Asynchronous external I/O (`invoke` calls to the Tauri backend) is
  modelled by explicit inputs (the read results) and an explicit list
  of emitted persistence effects, in the order the source awaits them.
* A thrown `Error` is an `Except.error` carrying the source's message
  string.
-/

/-- One entry of the `organizations` array inside the JWT auth data
(`src/types/index.ts`, `AccountInfo.organizations`). -/
structure Organization where
  id : String
  title : String
  role : String
deriving Repr, DecidableEq

/-- Account profile parsed from a JWT (`src/types/index.ts`, `AccountInfo`). -/
structure AccountInfo where
  email : String
  planType : String
  accountId : String
  userId : String
  subscriptionActiveUntil : Option String
  organizations : List Organization
deriving Repr, DecidableEq

/-- The `https://api.openai.com/auth` object of a decoded JWT payload, as read
by `parseAccountInfo` in `src/utils/jwt.ts`.  Each field may be absent. -/
structure JWTAuthData where
  chatgpt_plan_type : Option String
  chatgpt_account_id : Option String
  chatgpt_user_id : Option String
  chatgpt_subscription_active_until : Option String
  organizations : Option (List Organization)
deriving Repr, DecidableEq

/-- A decoded JWT payload: the `email` claim and the OpenAI auth object.
`authData = none` models a payload without the
`https://api.openai.com/auth` key. -/
structure JWTPayload where
  email : Option String
  authData : Option JWTAuthData
deriving Repr, DecidableEq

/-- The `tokens` object of `CodexAuthConfig` (`src/types/index.ts`).  The
`id_token` string is represented by its decode outcome: `none` when
`decodeJWTPayload` would throw on it. -/
structure Tokens where
  id_token : Option JWTPayload
  access_token : String
  refresh_token : String
  account_id : String
deriving Repr, DecidableEq

/-- The Codex `auth.json` shape (`src/types/index.ts`, `CodexAuthConfig`). -/
structure CodexAuthConfig where
  OPENAI_API_KEY : Option String
  tokens : Tokens
  last_refresh : String
deriving Repr, DecidableEq

/-- `contextWindow` part of `UsageInfo` (`src/types/index.ts`). -/
structure ContextWindowUsage where
  percentLeft : Int
  used : String
  total : String
deriving Repr, DecidableEq

/-- `fiveHourLimit` / `weeklyLimit` part of `UsageInfo` (`src/types/index.ts`). -/
structure LimitUsage where
  percentLeft : Int
  resetTime : String
deriving Repr, DecidableEq

/-- Usage snapshot (`src/types/index.ts`, `UsageInfo`). -/
structure UsageInfo where
  contextWindow : Option ContextWindowUsage
  fiveHourLimit : LimitUsage
  weeklyLimit : LimitUsage
  lastUpdated : String
  sourceFile : Option String
deriving Repr, DecidableEq

/-- A stored account record (`src/types/index.ts`, `StoredAccount`): after the
load-time migration no secret credential is embedded. -/
structure StoredAccount where
  id : String
  «alias» : String
  accountInfo : AccountInfo
  usageInfo : Option UsageInfo
  isActive : Bool
  createdAt : String
  updatedAt : String
deriving Repr, DecidableEq

/-- Application configuration (`src/types/index.ts`, `AppConfig`);
`hasInitialized` is absent from `DEFAULT_CONFIG`, hence optional here. -/
structure AppConfig where
  autoRefreshInterval : Int
  codexPath : String
  theme : String
  hasInitialized : Option Bool
deriving Repr, DecidableEq

/-- The persisted/in-memory store (`src/types/index.ts`, `AccountsStore`). -/
structure AccountsStore where
  version : String
  accounts : List StoredAccount
  config : AppConfig
deriving Repr, DecidableEq

/-- A record as it may sit in the persisted JSON before migration:
`LegacyStoredAccount` in `src/utils/storage.ts` — a `StoredAccount` with an
optional embedded `authConfig` secret. -/
structure LegacyStoredAccount where
  id : String
  «alias» : String
  accountInfo : AccountInfo
  usageInfo : Option UsageInfo
  isActive : Bool
  createdAt : String
  updatedAt : String
  authConfig : Option CodexAuthConfig
deriving Repr, DecidableEq

/-- The persisted store blob as parsed by `loadAccountsStore`, whose account
records may still carry embedded secrets. -/
structure LegacyAccountsStore where
  version : String
  accounts : List LegacyStoredAccount
  config : AppConfig
deriving Repr, DecidableEq

/-- Persistence effects awaited by the storage operations, in source order:
`save_accounts_store`, `save_account_auth`, `delete_account_auth` and
`write_codex_auth` backend invocations. -/
inductive Effect where
  | saveStore (store : AccountsStore)
  | saveAuth (accountId : String) (authConfig : CodexAuthConfig)
  | deleteAuth (accountId : String)
  | writeCodexAuth (authConfig : CodexAuthConfig)
deriving Repr, DecidableEq

/-- JavaScript `a || b` on an optional string `a` and default `b`: both
`undefined` and the empty string are falsy. -/
def jsOrStr (a : Option String) (b : String) : String :=
  match a with
  | some s => if s = "" then b else s
  | none => b

/-- `email.split('@')[0]`: the characters before the first `'@'`
(the whole string when no `'@'` occurs). -/
def localPartChars : List Char → List Char
  | [] => []
  | c :: rest => if c = '@' then [] else c :: localPartChars rest

/-- `email.split('@')[0]` on strings. -/
def localPart (s : String) : String := ⟨localPartChars s.data⟩

/-- `parseAccountInfo` from `src/utils/jwt.ts`.  Decode failure of the
`id_token` throws `Invalid JWT token`; a payload without the OpenAI auth
object throws `Missing OpenAI auth data in token`; otherwise each profile
field is filled with the JavaScript `||` fallbacks of the source. -/
def parseAccountInfo (authConfig : CodexAuthConfig) : Except String AccountInfo :=
  match authConfig.tokens.id_token with
  | none => .error "Invalid JWT token"
  | some payload =>
    match payload.authData with
    | none => .error "Missing OpenAI auth data in token"
    | some authData =>
      .ok {
        email := jsOrStr payload.email "Unknown"
        planType := jsOrStr authData.chatgpt_plan_type "free"
        accountId := jsOrStr authData.chatgpt_account_id authConfig.tokens.account_id
        userId := jsOrStr authData.chatgpt_user_id ""
        subscriptionActiveUntil := authData.chatgpt_subscription_active_until
        organizations := authData.organizations.getD [] }

/-- Strip the embedded `authConfig` from a legacy record
(the `const { authConfig, ...rest } = account` destructuring in
`loadAccountsStore`). -/
def stripAuthConfig (a : LegacyStoredAccount) : StoredAccount :=
  { id := a.id, «alias» := a.«alias», accountInfo := a.accountInfo,
    usageInfo := a.usageInfo, isActive := a.isActive,
    createdAt := a.createdAt, updatedAt := a.updatedAt }

/-- The migration loop of `loadAccountsStore` (`src/utils/storage.ts`): for
each record still carrying an embedded secret, hand the secret to
`save_account_auth` keyed by the record's id and mark the store dirty; every
record is stripped of the embedded field.  Returns the normalized records, the
emitted `saveAuth` effects in order, and the dirty flag. -/
def migrateAccounts : List LegacyStoredAccount → List StoredAccount × List Effect × Bool
  | [] => ([], [], false)
  | a :: rest =>
    let (rest', effects, needsSave) := migrateAccounts rest
    match a.authConfig with
    | some cfg => (stripAuthConfig a :: rest', Effect.saveAuth a.id cfg :: effects, true)
    | none => (stripAuthConfig a :: rest', effects, needsSave)

/-- `loadAccountsStore` (`src/utils/storage.ts`), success path: the parsed
persisted blob is normalized by the migration loop and re-saved exactly when
some record required migration.  (The merging of `DEFAULT_STORE` /
`DEFAULT_CONFIG` over missing JSON fields is elided: the parsed shape is
total here.) -/
def loadAccountsStore (raw : LegacyAccountsStore) : AccountsStore × List Effect :=
  let (accounts', effects, needsSave) := migrateAccounts raw.accounts
  let store' : AccountsStore :=
    { version := raw.version, accounts := accounts', config := raw.config }
  (store', effects ++ (if needsSave then [Effect.saveStore store'] else []))

/-- The predicate of the `findIndex` in `addAccount`
(`src/utils/storage.ts`): an existing record matches exactly when its
`accountInfo.accountId` equals the parsed credential's `accountId`. -/
def accountIdMatches (accountInfo : AccountInfo) (acc : StoredAccount) : Bool :=
  acc.accountInfo.accountId == accountInfo.accountId

/-- The merge branch of `addAccount`: overwrite `accountInfo`, keep the old
alias unless a truthy new one is given (`alias || existing.alias`), bump
`updatedAt`; every other field (`id`, `usageInfo`, `isActive`, `createdAt`)
is kept by the object spread. -/
def mergeRecord (accountInfo : AccountInfo) (newAlias : Option String)
    (now : String) (acc : StoredAccount) : StoredAccount :=
  { acc with
    accountInfo := accountInfo
    «alias» := jsOrStr newAlias acc.«alias»
    updatedAt := now }

/-- `findIndex` followed by in-place assignment at the found index, rendered
structurally: replace the first element satisfying `p` by its image under
`f`, returning the updated element and list, or `none` when no element
matches. -/
def replaceFirstMatch (p : StoredAccount → Bool) (f : StoredAccount → StoredAccount) :
    List StoredAccount → Option (StoredAccount × List StoredAccount)
  | [] => none
  | acc :: rest =>
    if p acc then
      some (f acc, f acc :: rest)
    else
      match replaceFirstMatch p f rest with
      | some (updated, rest') => some (updated, acc :: rest')
      | none => none

/-- `addAccount` (`src/utils/storage.ts`, post-migration version, lines
328–374).  Inputs beyond the credential and optional alias are the loaded
store, the id `generateId()` would return, and the timestamp
`new Date().toISOString()` would return.  On success it returns the
created/updated record, the updated store, and the persistence effects in
source order; a parse failure propagates before any mutation. -/
def addAccount (store : AccountsStore) (authConfig : CodexAuthConfig)
    (newAlias : Option String) (freshId now : String) :
    Except String (StoredAccount × AccountsStore × List Effect) :=
  match parseAccountInfo authConfig with
  | .error e => .error e
  | .ok accountInfo =>
    match replaceFirstMatch (accountIdMatches accountInfo)
        (mergeRecord accountInfo newAlias now) store.accounts with
    | some (updated, accounts') =>
      let store' := { store with accounts := accounts' }
      .ok (updated, store', [Effect.saveAuth updated.id authConfig, Effect.saveStore store'])
    | none =>
      let newAccount : StoredAccount :=
        { id := freshId
          «alias» := jsOrStr newAlias (localPart accountInfo.email)
          accountInfo := accountInfo
          usageInfo := none
          isActive := store.accounts.isEmpty
          createdAt := now
          updatedAt := now }
      let store' := { store with accounts := store.accounts ++ [newAccount] }
      .ok (newAccount, store',
        [Effect.saveAuth freshId authConfig, Effect.saveStore store'])

/-- `removeAccount` (`src/utils/storage.ts`): filter the id out (with no
existence check), persist the store, then ask the backend to delete the
per-account secret. -/
def removeAccount (store : AccountsStore) (accountId : String) :
    AccountsStore × List Effect :=
  let store' := { store with accounts := store.accounts.filter (fun acc => acc.id != accountId) }
  (store', [Effect.saveStore store', Effect.deleteAuth accountId])

/-- `setActiveAccount` (`src/utils/storage.ts`): set `isActive` on every
record to whether its id equals the target, then persist. -/
def setActiveAccount (store : AccountsStore) (accountId : String) :
    AccountsStore × List Effect :=
  let store' := { store with
    accounts := store.accounts.map (fun acc => { acc with isActive := acc.id == accountId }) }
  (store', [Effect.saveStore store'])

/-- `switchToAccount` (`src/utils/storage.ts`): look the id up (throwing
`Account not found` when absent), load the per-account secret from the
backend (modelled as the total collaborator `authStore`), write it to the
Codex credential file, then delegate to `setActiveAccount`. -/
def switchToAccount (store : AccountsStore) (authStore : String → CodexAuthConfig)
    (accountId : String) : Except String (AccountsStore × List Effect) :=
  match store.accounts.find? (fun acc => acc.id == accountId) with
  | none => .error "Account not found"
  | some _ =>
    let authConfig := authStore accountId
    let (store', effects) := setActiveAccount store accountId
    .ok (store', Effect.writeCodexAuth authConfig :: effects)

/-- `getCurrentAuthAccountId` (`src/utils/storage.ts`): the whole body runs
in a `try` whose `catch` returns `null`, so a backend read failure
(`readResult = .error`) yields `none`; otherwise prefer a truthy
`tokens.account_id`, then fall back to parsing the JWT (whose thrown errors
are also caught to `null`), else `null`. -/
def getCurrentAuthAccountId (readResult : Except String CodexAuthConfig) :
    Option String :=
  match readResult with
  | .error _ => none
  | .ok authConfig =>
    if authConfig.tokens.account_id ≠ "" then
      some authConfig.tokens.account_id
    else
      match authConfig.tokens.id_token with
      | none => none
      | some _ =>
        match parseAccountInfo authConfig with
        | .ok accountInfo => some accountInfo.accountId
        | .error _ => none

/-- JavaScript falsiness of the `currentAccountId` value tested by
`if (!currentAccountId)` in `syncCurrentAccount`: `null` or the empty
string. -/
def jsFalsyId : Option String → Bool
  | none => true
  | some s => s == ""

/-- The clearing `forEach` of `syncCurrentAccount`'s absent branch: drop
`isActive` everywhere, remembering whether any flag actually flipped. -/
def clearActive : List StoredAccount → List StoredAccount × Bool
  | [] => ([], false)
  | acc :: rest =>
    let (rest', changed) := clearActive rest
    if acc.isActive then ({ acc with isActive := false } :: rest', true)
    else (acc :: rest', changed)

/-- The matching `forEach` of `syncCurrentAccount`: each record whose
`accountInfo.accountId` equals the observed id is activated (and recorded as
`matchedId`, later records overwriting earlier ones), every other record is
deactivated; the flag records whether any `isActive` actually flipped. -/
def syncVisit (cid : String) : List StoredAccount → Option String × List StoredAccount × Bool
  | [] => (none, [], false)
  | acc :: rest =>
    let (matchedRest, rest', changedRest) := syncVisit cid rest
    if acc.accountInfo.accountId == cid then
      (some (matchedRest.getD acc.id),
       { acc with isActive := true } :: rest',
       changedRest || !acc.isActive)
    else
      (matchedRest,
       { acc with isActive := false } :: rest',
       changedRest || acc.isActive)

/-- `syncCurrentAccount` (`src/utils/storage.ts`, lines 495–538): observe the
external credential, and when no usable account id is observed clear every
`isActive` flag, otherwise reconcile the flags against the observed id;
persist only when some flag flipped; return the matched id (or `null`). -/
def syncCurrentAccount (readResult : Except String CodexAuthConfig)
    (store : AccountsStore) : Option String × AccountsStore × List Effect :=
  let currentAccountId := getCurrentAuthAccountId readResult
  if jsFalsyId currentAccountId then
    let (accounts', needsSave) := clearActive store.accounts
    let store' := { store with accounts := accounts' }
    (none, store', if needsSave then [Effect.saveStore store'] else [])
  else
    let cid := currentAccountId.getD ""
    let (matchedId, accounts', needsSave) := syncVisit cid store.accounts
    let store' := { store with accounts := accounts' }
    (matchedId, store', if needsSave then [Effect.saveStore store'] else [])

/-- The five store-mutating operations quantified over by the single-active
claim, each carrying its external inputs (`add` additionally carries the id
and timestamp the impure `generateId()` / `new Date()` calls would return). -/
inductive Op where
  | add (authConfig : CodexAuthConfig) (newAlias : Option String) (freshId now : String)
  | remove (accountId : String)
  | switchTo (accountId : String)
  | setActive (accountId : String)
  | sync (readResult : Except String CodexAuthConfig)
deriving Repr

/-- Apply one operation to the store; a thrown error leaves the store as it
was (the source throws before any mutation or save in those paths). -/
def applyOp (authStore : String → CodexAuthConfig) (store : AccountsStore) :
    Op → AccountsStore
  | .add authConfig newAlias freshId now =>
    match addAccount store authConfig newAlias freshId now with
    | .ok (_, store', _) => store'
    | .error _ => store
  | .remove accountId => (removeAccount store accountId).1
  | .switchTo accountId =>
    match switchToAccount store authStore accountId with
    | .ok (store', _) => store'
    | .error _ => store
  | .setActive accountId => (setActiveAccount store accountId).1
  | .sync readResult => (syncCurrentAccount readResult store).2.1

/-- Apply a sequence of operations left to right. -/
def applyOps (authStore : String → CodexAuthConfig) (store : AccountsStore) :
    List Op → AccountsStore
  | [] => store
  | op :: rest => applyOps authStore (applyOp authStore store op) rest

/-- Number of stored accounts with `isActive === true`. -/
def countActive (accounts : List StoredAccount) : Nat :=
  accounts.countP (·.isActive)

/-- The ids of the stored accounts, in order. -/
def idsOf (store : AccountsStore) : List String := store.accounts.map (·.id)

/-- The `accountInfo.accountId` values of the stored accounts, in order. -/
def accountIdsOf (store : AccountsStore) : List String :=
  store.accounts.map (·.accountInfo.accountId)

/-- A run is fresh when every `add` operation's generated id is not already a
stored id at the moment the operation is applied (the contract of
`generateId()`). -/
def FreshRun (authStore : String → CodexAuthConfig) (store : AccountsStore) :
    List Op → Prop
  | [] => True
  | op :: rest =>
    (match op with
     | .add _ _ freshId _ => freshId ∉ idsOf store
     | _ => True) ∧ FreshRun authStore (applyOp authStore store op) rest

/-- Drop the `isActive` flag of one record (the assignment performed by the
clearing branch of `syncCurrentAccount`). -/
def deactivate (a : StoredAccount) : StoredAccount := { a with isActive := false }

/-- The per-record outcome of the matching `forEach` of `syncCurrentAccount`:
active exactly when the record's `accountInfo.accountId` equals the observed
id. -/
def setActiveIff (cid : String) (a : StoredAccount) : StoredAccount :=
  { a with isActive := a.accountInfo.accountId == cid }

/-- The single-active data invariant together with the id-distinctness
assumptions it needs: stored ids are distinct, stored
`accountInfo.accountId` values are distinct, and at most one record is
active. -/
def StoreInv (s : AccountsStore) : Prop :=
  (idsOf s).Nodup ∧ (accountIdsOf s).Nodup ∧ countActive s.accounts ≤ 1

theorem deactivate_eq_self (a : StoredAccount) (h : a.isActive = false) :
    deactivate a = a := by
  cases a; simp_all [deactivate]

theorem deactivate_deactivate (a : StoredAccount) :
    deactivate (deactivate a) = deactivate a := rfl

theorem setActiveIff_setActiveIff (cid : String) (a : StoredAccount) :
    setActiveIff cid (setActiveIff cid a) = setActiveIff cid a := rfl

theorem replaceFirstMatch_eq_none_iff (p : StoredAccount → Bool)
    (f : StoredAccount → StoredAccount) (l : List StoredAccount) :
    replaceFirstMatch p f l = none ↔ ∀ a ∈ l, p a = false := by
  induction l with
  | nil => simp [replaceFirstMatch]
  | cons acc rest ih =>
    by_cases h : p acc
    · simp [replaceFirstMatch, h]
    · have hf : p acc = false := by simpa using h
      cases hr : replaceFirstMatch p f rest with
      | none =>
        simp only [replaceFirstMatch, if_neg h, hr, List.mem_cons]
        constructor
        · intro _ a ha
          rcases ha with rfl | ha
          · exact hf
          · exact ih.mp hr a ha
        · intro _; trivial
      | some v =>
        simp only [replaceFirstMatch, if_neg h, hr]
        constructor
        · intro hc; cases hc
        · intro hall
          have hn : replaceFirstMatch p f rest = none :=
            ih.mpr (fun a ha => hall a (List.mem_cons_of_mem _ ha))
          rw [hn] at hr; cases hr

theorem replaceFirstMatch_of_split (p : StoredAccount → Bool)
    (f : StoredAccount → StoredAccount) (l1 l2 : List StoredAccount)
    (a : StoredAccount) (h1 : ∀ x ∈ l1, p x = false) (h2 : p a = true) :
    replaceFirstMatch p f (l1 ++ a :: l2) = some (f a, l1 ++ f a :: l2) := by
  induction l1 with
  | nil => simp [replaceFirstMatch, h2]
  | cons x xs ih =>
    have hx : p x = false := h1 x (List.mem_cons_self x xs)
    have ih' := ih (fun y hy => h1 y (List.mem_cons_of_mem _ hy))
    simp [replaceFirstMatch, hx, ih']

theorem replaceFirstMatch_eq_some (p : StoredAccount → Bool)
    (f : StoredAccount → StoredAccount) (l : List StoredAccount)
    (u : StoredAccount) (l' : List StoredAccount)
    (h : replaceFirstMatch p f l = some (u, l')) :
    ∃ l1 a l2, l = l1 ++ a :: l2 ∧ (∀ x ∈ l1, p x = false) ∧ p a = true ∧
      u = f a ∧ l' = l1 ++ f a :: l2 := by
  induction l generalizing u l' with
  | nil => simp [replaceFirstMatch] at h
  | cons acc rest ih =>
    by_cases hp : p acc
    · refine ⟨[], acc, rest, by simp, by simp, by simpa using hp, ?_, ?_⟩ <;>
      · simp [replaceFirstMatch, hp] at h
        simp [h.1.symm, h.2.symm]
    · simp only [replaceFirstMatch, if_neg hp] at h
      cases hr : replaceFirstMatch p f rest with
      | none => rw [hr] at h; cases h
      | some v =>
        rw [hr] at h
        obtain ⟨u', rest'⟩ := v
        simp only [Option.some.injEq, Prod.mk.injEq] at h
        obtain ⟨l1, a, l2, heq, hall, hpa, hu, hrest⟩ := ih u' rest' hr
        refine ⟨acc :: l1, a, l2, by simp [heq], ?_, hpa, by simp [h.1.symm, hu], ?_⟩
        · intro x hx
          rcases List.mem_cons.mp hx with hx | hx
          · subst hx; simpa using hp
          · exact hall x hx
        · simp [← h.2, hrest]

theorem replaceFirstMatch_map_eq {β : Type} (p : StoredAccount → Bool)
    (f : StoredAccount → StoredAccount) {l l' : List StoredAccount}
    {u : StoredAccount} (h : replaceFirstMatch p f l = some (u, l'))
    (g : StoredAccount → β) (hg : ∀ a, p a = true → g (f a) = g a) :
    l'.map g = l.map g := by
  obtain ⟨l1, a, l2, rfl, hall, hpa, hu, rfl⟩ :=
    replaceFirstMatch_eq_some p f _ u l' h
  simp [hg a hpa]

theorem replaceFirstMatch_countP_eq (p : StoredAccount → Bool)
    (f : StoredAccount → StoredAccount) {l l' : List StoredAccount}
    {u : StoredAccount} (h : replaceFirstMatch p f l = some (u, l'))
    (q : StoredAccount → Bool) (hq : ∀ a, p a = true → q (f a) = q a) :
    l'.countP q = l.countP q := by
  obtain ⟨l1, a, l2, rfl, hall, hpa, hu, rfl⟩ :=
    replaceFirstMatch_eq_some p f _ u l' h
  simp [List.countP_append, List.countP_cons, hq a hpa]

theorem clearActive_fst (l : List StoredAccount) :
    (clearActive l).1 = l.map deactivate := by
  induction l with
  | nil => rfl
  | cons a rest ih =>
    rcases hcr : clearActive rest with ⟨rest', changed⟩
    rw [hcr] at ih
    cases h : a.isActive with
    | true => simp [clearActive, hcr, h, ih, deactivate]
    | false => simp [clearActive, hcr, h, ih, deactivate_eq_self a h]

theorem clearActive_snd (l : List StoredAccount) :
    (clearActive l).2 = l.any (fun a => a.isActive) := by
  induction l with
  | nil => rfl
  | cons a rest ih =>
    rcases hcr : clearActive rest with ⟨rest', changed⟩
    rw [hcr] at ih
    cases h : a.isActive with
    | true => simp [clearActive, hcr, h]
    | false => simp [clearActive, hcr, h, ih]

theorem syncVisit_accounts (cid : String) (l : List StoredAccount) :
    (syncVisit cid l).2.1 = l.map (setActiveIff cid) := by
  induction l with
  | nil => rfl
  | cons a rest ih =>
    rcases hsv : syncVisit cid rest with ⟨m, rest', changed⟩
    rw [hsv] at ih
    simp only [] at ih
    cases h : (a.accountInfo.accountId == cid) with
    | true => simp [syncVisit, hsv, h, ih, setActiveIff]
    | false => simp [syncVisit, hsv, h, ih, setActiveIff]

theorem syncVisit_changed (cid : String) (l : List StoredAccount) :
    (syncVisit cid l).2.2 =
      l.any (fun a => a.isActive != (a.accountInfo.accountId == cid)) := by
  induction l with
  | nil => rfl
  | cons a rest ih =>
    rcases hsv : syncVisit cid rest with ⟨m, rest', changed⟩
    rw [hsv] at ih
    simp only [] at ih
    cases h : (a.accountInfo.accountId == cid) with
    | true =>
      cases ha : a.isActive <;> simp [syncVisit, hsv, h, ha, ih]
    | false =>
      cases ha : a.isActive <;> simp [syncVisit, hsv, h, ha, ih]

theorem syncVisit_matched_map (cid : String) (l : List StoredAccount) :
    (syncVisit cid (l.map (setActiveIff cid))).1 = (syncVisit cid l).1 := by
  induction l with
  | nil => rfl
  | cons a rest ih =>
    rcases hsv : syncVisit cid rest with ⟨m, rest', changed⟩
    rcases hsv2 : syncVisit cid (rest.map (setActiveIff cid)) with ⟨m2, rest2, changed2⟩
    rw [hsv] at ih; rw [hsv2] at ih
    cases h : (a.accountInfo.accountId == cid) with
    | true =>
      have h' : ((setActiveIff cid a).accountInfo.accountId == cid) = true := h
      simp [syncVisit, hsv, hsv2, h, h', ih, setActiveIff]
    | false =>
      have h' : ((setActiveIff cid a).accountInfo.accountId == cid) = false := h
      simp [syncVisit, hsv, hsv2, h, h', ih]

theorem countActive_nil : countActive [] = 0 := rfl

theorem countActive_append (l1 l2 : List StoredAccount) :
    countActive (l1 ++ l2) = countActive l1 + countActive l2 :=
  List.countP_append _ _ _

theorem countActive_map_deactivate (l : List StoredAccount) :
    countActive (l.map deactivate) = 0 := by
  simp [countActive, List.countP_map]
  intro a _
  rfl

theorem countActive_map_setActiveIff (cid : String) (l : List StoredAccount) :
    countActive (l.map (setActiveIff cid)) =
      (l.map (fun a => a.accountInfo.accountId)).count cid := by
  simp [countActive, List.countP_map, List.count, Function.comp_def, setActiveIff]

theorem countActive_map_setActiveId (accountId : String) (l : List StoredAccount) :
    countActive (l.map (fun acc => { acc with isActive := acc.id == accountId })) =
      (l.map (fun a => a.id)).count accountId := by
  simp [countActive, List.countP_map, List.count, Function.comp_def]

theorem count_le_one_of_nodup {l : List String} (h : l.Nodup) (a : String) :
    l.count a ≤ 1 :=
  List.nodup_iff_count_le_one.mp h a

theorem inv_setActiveAccount (s : AccountsStore) (accountId : String)
    (h : StoreInv s) : StoreInv (setActiveAccount s accountId).1 := by
  obtain ⟨hid, haid, hact⟩ := h
  refine ⟨?_, ?_, ?_⟩
  · simpa [idsOf, setActiveAccount, List.map_map, Function.comp_def] using hid
  · simpa [accountIdsOf, setActiveAccount, List.map_map, Function.comp_def] using haid
  · simp only [setActiveAccount]
    calc countActive (s.accounts.map fun acc => { acc with isActive := acc.id == accountId })
        = (s.accounts.map fun a => a.id).count accountId :=
          countActive_map_setActiveId accountId s.accounts
      _ ≤ 1 := count_le_one_of_nodup hid _

theorem inv_removeAccount (s : AccountsStore) (accountId : String)
    (h : StoreInv s) : StoreInv (removeAccount s accountId).1 := by
  obtain ⟨hid, haid, hact⟩ := h
  have hsub : (s.accounts.filter (fun acc => acc.id != accountId)).Sublist s.accounts :=
    List.filter_sublist _
  refine ⟨?_, ?_, ?_⟩
  · exact List.Nodup.sublist (hsub.map _) hid
  · exact List.Nodup.sublist (hsub.map _) haid
  · exact le_trans (hsub.countP_le _) hact

theorem inv_switchToAccount (s s' : AccountsStore) (authStore : String → CodexAuthConfig)
    (accountId : String) (e : List Effect) (h : StoreInv s)
    (hok : switchToAccount s authStore accountId = .ok (s', e)) : StoreInv s' := by
  rw [switchToAccount] at hok
  cases hf : s.accounts.find? (fun acc => acc.id == accountId) with
  | none => rw [hf] at hok; cases hok
  | some a =>
    rw [hf] at hok
    simp only [Except.ok.injEq, Prod.mk.injEq] at hok
    rw [← hok.1]
    exact inv_setActiveAccount s accountId h

theorem inv_addAccount (s : AccountsStore) (cfg : CodexAuthConfig)
    (al : Option String) (freshId now : String)
    (h : StoreInv s) (hfresh : freshId ∉ idsOf s)
    (a : StoredAccount) (s' : AccountsStore) (e : List Effect)
    (hok : addAccount s cfg al freshId now = .ok (a, s', e)) : StoreInv s' := by
  obtain ⟨hid, haid, hact⟩ := h
  rw [addAccount] at hok
  cases hp : parseAccountInfo cfg with
  | error err => rw [hp] at hok; cases hok
  | ok info =>
    rw [hp] at hok
    simp only [] at hok
    cases hr : replaceFirstMatch (accountIdMatches info)
        (mergeRecord info al now) s.accounts with
    | some v =>
      obtain ⟨u, accounts'⟩ := v
      rw [hr] at hok
      simp only [Except.ok.injEq, Prod.mk.injEq] at hok
      obtain ⟨-, hs', -⟩ := hok
      have hids : accounts'.map (fun x => x.id) = s.accounts.map (fun x => x.id) :=
        replaceFirstMatch_map_eq _ _ hr _ (fun _ _ => rfl)
      have haids : accounts'.map (fun x => x.accountInfo.accountId) =
          s.accounts.map (fun x => x.accountInfo.accountId) := by
        refine replaceFirstMatch_map_eq _ _ hr _ (fun x hx => ?_)
        have hx' : x.accountInfo.accountId = info.accountId := by
          simpa [accountIdMatches] using hx
        simp [mergeRecord, hx']
      have hcnt : accounts'.countP (fun x => x.isActive) =
          s.accounts.countP (fun x => x.isActive) :=
        replaceFirstMatch_countP_eq _ _ hr _ (fun _ _ => rfl)
      refine ⟨?_, ?_, ?_⟩
      · rw [← hs']; simpa [idsOf, hids] using hid
      · rw [← hs']; simpa [accountIdsOf, haids] using haid
      · rw [← hs']; simpa [countActive, hcnt] using hact
    | none =>
      rw [hr] at hok
      simp only [Except.ok.injEq, Prod.mk.injEq] at hok
      obtain ⟨-, hs', -⟩ := hok
      have hall : ∀ x ∈ s.accounts, accountIdMatches info x = false :=
        (replaceFirstMatch_eq_none_iff _ _ _).mp hr
      refine ⟨?_, ?_, ?_⟩
      · rw [← hs']
        simp only [idsOf, List.map_append, List.map_cons, List.map_nil,
          List.nodup_append]
        refine ⟨hid, List.nodup_singleton _, ?_⟩
        intro x hx
        simp only [List.mem_singleton]
        intro hxf
        subst hxf
        exact hfresh hx
      · rw [← hs']
        simp only [accountIdsOf, List.map_append, List.map_cons, List.map_nil,
          List.nodup_append]
        refine ⟨haid, List.nodup_singleton _, ?_⟩
        intro x hx
        simp only [List.mem_singleton]
        intro hxf
        subst hxf
        obtain ⟨y, hy, hyx⟩ := List.mem_map.mp hx
        have := hall y hy
        simp only [accountIdMatches] at this
        rw [hyx] at this
        simp at this
      · rw [← hs']
        rw [countActive_append]
        cases hemp : s.accounts with
        | nil => simp [countActive, List.countP_cons]
        | cons z zs =>
          have h1 : countActive (z :: zs) ≤ 1 := by rw [← hemp]; exact hact
          have h2 : countActive
              [{ id := freshId, «alias» := jsOrStr al (localPart info.email),
                 accountInfo := info, usageInfo := none,
                 isActive := (z :: zs).isEmpty, createdAt := now,
                 updatedAt := now }] = 0 := by
            simp [countActive, List.countP_cons, List.isEmpty]
          omega

theorem inv_syncCurrentAccount (r : Except String CodexAuthConfig)
    (s : AccountsStore) (h : StoreInv s) :
    StoreInv (syncCurrentAccount r s).2.1 := by
  obtain ⟨hid, haid, hact⟩ := h
  by_cases hf : jsFalsyId (getCurrentAuthAccountId r) = true
  · have hacc : (syncCurrentAccount r s).2.1.accounts = s.accounts.map deactivate := by
      simp [syncCurrentAccount, hf, clearActive_fst]
    have hv : (syncCurrentAccount r s).2.1.version = s.version := by
      simp [syncCurrentAccount, hf]
    refine ⟨?_, ?_, ?_⟩
    · simpa [idsOf, hacc, List.map_map, Function.comp_def, deactivate] using hid
    · simpa [accountIdsOf, hacc, List.map_map, Function.comp_def, deactivate] using haid
    · rw [hacc, countActive_map_deactivate]; omega
  · have hacc : (syncCurrentAccount r s).2.1.accounts =
        s.accounts.map (setActiveIff ((getCurrentAuthAccountId r).getD "")) := by
      simp [syncCurrentAccount, hf, syncVisit_accounts]
    refine ⟨?_, ?_, ?_⟩
    · simpa [idsOf, hacc, List.map_map, Function.comp_def, setActiveIff] using hid
    · simpa [accountIdsOf, hacc, List.map_map, Function.comp_def, setActiveIff] using haid
    · rw [hacc, countActive_map_setActiveIff]
      exact count_le_one_of_nodup haid _

theorem inv_applyOp (authStore : String → CodexAuthConfig) (s : AccountsStore)
    (op : Op) (h : StoreInv s)
    (hfresh : match op with
      | Op.add _ _ freshId _ => freshId ∉ idsOf s
      | _ => True) :
    StoreInv (applyOp authStore s op) := by
  cases op with
  | add cfg al freshId now =>
    simp only [applyOp]
    cases hadd : addAccount s cfg al freshId now with
    | ok v =>
      obtain ⟨a, s', e⟩ := v
      exact inv_addAccount s cfg al freshId now h hfresh a s' e hadd
    | error err => exact h
  | remove accountId => exact inv_removeAccount s accountId h
  | switchTo accountId =>
    simp only [applyOp]
    cases hsw : switchToAccount s authStore accountId with
    | ok v =>
      obtain ⟨s', e⟩ := v
      exact inv_switchToAccount s s' authStore accountId e h hsw
    | error err => exact h
  | setActive accountId => exact inv_setActiveAccount s accountId h
  | sync r => exact inv_syncCurrentAccount r s h

/-- Test fixture: an account profile with the given identity fields. -/
def mkInfo (aid uid em : String) : AccountInfo :=
  { email := em, planType := "free", accountId := aid, userId := uid,
    subscriptionActiveUntil := none, organizations := [] }

/-- Test fixture: a stored account record. -/
def mkAccount (i : String) (info : AccountInfo) (act : Bool) : StoredAccount :=
  { id := i, «alias» := i, accountInfo := info, usageInfo := none,
    isActive := act, createdAt := "2024-01-01T00:00:00.000Z",
    updatedAt := "2024-01-02T00:00:00.000Z" }

/-- Test fixture: the `DEFAULT_CONFIG` values of `src/utils/storage.ts`. -/
def mkConfig : AppConfig :=
  { autoRefreshInterval := 10, codexPath := "codex", theme := "dark",
    hasInitialized := none }

/-- Test fixture: a store with the given records. -/
def mkStore (accounts : List StoredAccount) : AccountsStore :=
  { version := "1.0.0", accounts := accounts, config := mkConfig }

/-- Test fixture: a credential whose JWT fails to decode, carrying only the
given raw `tokens.account_id`. -/
def mkRawCfg (aid : String) : CodexAuthConfig :=
  { OPENAI_API_KEY := none,
    tokens := { id_token := none, access_token := "", refresh_token := "",
                account_id := aid },
    last_refresh := "" }

/-- Test fixture: the decoded auth object of a JWT carrying the given
identity. -/
def mkAuthData (aid uid : String) : JWTAuthData :=
  { chatgpt_plan_type := none, chatgpt_account_id := some aid,
    chatgpt_user_id := some uid, chatgpt_subscription_active_until := none,
    organizations := none }

/-- Test fixture: a decoded JWT payload carrying the given identity. -/
def mkPayload (aid uid em : String) : JWTPayload :=
  { email := some em, authData := some (mkAuthData aid uid) }

/-- Test fixture: a credential whose JWT decodes to the given identity. -/
def mkJwtCfg (aid uid em : String) : CodexAuthConfig :=
  { OPENAI_API_KEY := none,
    tokens := { id_token := some (mkPayload aid uid em), access_token := "",
                refresh_token := "", account_id := "" },
    last_refresh := "" }

/-- C1, counterexample.  The claim quantifies over every store with at most
one active account, including stores in which two records share the same
`accountInfo.accountId` (the spec itself treats a reused id as a real
scenario).  Starting from such a store with zero active accounts, a single
`syncCurrentAccount` observing that shared id activates **both** records:
the matching `forEach` of `syncCurrentAccount` sets `isActive = true` on
every record whose `accountId` matches, so the claimed invariant is false
as stated. -/
theorem singleActive_violated_by_sync_on_reused_accountId :
    countActive (mkStore [mkAccount "i1" (mkInfo "A1" "U1" "e1") false,
      mkAccount "i2" (mkInfo "A1" "U2" "e2") false]).accounts ≤ 1 ∧
    countActive (applyOps (fun _ => mkRawCfg "")
      (mkStore [mkAccount "i1" (mkInfo "A1" "U1" "e1") false,
        mkAccount "i2" (mkInfo "A1" "U2" "e2") false])
      [Op.sync (.ok (mkRawCfg "A1"))]).accounts = 2 := by
  decide

/-- C1 (amended): starting from any store whose record ids are pairwise
distinct, whose `accountInfo.accountId` values are pairwise distinct, and in
which at most one record is active, after any finite sequence of
`addAccount`, `removeAccount`, `switchToAccount`, `setActiveAccount` and
`syncCurrentAccount` operations in which every `addAccount` call's generated
id is fresh, at most one stored account has `isActive = true`. -/
theorem singleActive_invariant (authStore : String → CodexAuthConfig)
    (s : AccountsStore) (ops : List Op)
    (hid : (idsOf s).Nodup) (haid : (accountIdsOf s).Nodup)
    (hact : countActive s.accounts ≤ 1)
    (hrun : FreshRun authStore s ops) :
    countActive (applyOps authStore s ops).accounts ≤ 1 := by
  induction ops generalizing s with
  | nil => exact hact
  | cons op rest ih =>
    obtain ⟨h1, h2⟩ := hrun
    have hinv := inv_applyOp authStore s op ⟨hid, haid, hact⟩ h1
    exact ih (applyOp authStore s op) hinv.1 hinv.2.1 hinv.2.2 h2

/-- Witness for the C1 theorem at a concrete store and operation sequence. -/
theorem singleActive_invariant_witness :
    countActive (applyOps (fun _ => mkRawCfg "A1")
      (mkStore [mkAccount "i1" (mkInfo "A1" "U1" "e1") true])
      [Op.sync (.ok (mkRawCfg "A1")), Op.remove "i1"]).accounts ≤ 1 :=
  singleActive_invariant (fun _ => mkRawCfg "A1") _ _
    (by decide) (by decide) (by decide) ⟨trivial, trivial, trivial⟩

/-- Equality on `Except` results is decidable componentwise (used to evaluate
the operations on concrete inputs). -/
instance {ε α : Type} [DecidableEq ε] [DecidableEq α] : DecidableEq (Except ε α) := fun x y =>
  match x, y with
  | .error a, .error b =>
    if h : a = b then isTrue (by rw [h])
    else isFalse (fun hc => h (by cases hc; rfl))
  | .ok a, .ok b =>
    if h : a = b then isTrue (by rw [h])
    else isFalse (fun hc => h (by cases hc; rfl))
  | .error _, .ok _ => isFalse (fun hc => by cases hc)
  | .ok _, .error _ => isFalse (fun hc => by cases hc)

/-- C2, counterexample.  The store holds one account with identity
`{accountId "A1", userId "U1", email "u1@x.com"}`; the added credential
parses to `{accountId "A1", userId "U2", email "u2@y.com"}` — it agrees with
the stored record on `accountId` alone (neither `userId` nor `email`
matches, the "rank 1" situation of the claim).  The claim says such a
credential is never merged and a new account is created; `addAccount`
instead overwrites the existing record in place: the store still holds one
account, its `userId` is now `"U2"`, and the returned record keeps id
`"i1"`. -/
theorem addAccount_overwrites_on_accountId_only_match :
    (mkAccount "i1" (mkInfo "A1" "U1" "u1@x.com") true).accountInfo.accountId
        = (mkInfo "A1" "U2" "u2@y.com").accountId ∧
    (mkInfo "A1" "U2" "u2@y.com").userId
        ≠ (mkAccount "i1" (mkInfo "A1" "U1" "u1@x.com") true).accountInfo.userId ∧
    (mkInfo "A1" "U2" "u2@y.com").email
        ≠ (mkAccount "i1" (mkInfo "A1" "U1" "u1@x.com") true).accountInfo.email ∧
    parseAccountInfo (mkJwtCfg "A1" "U2" "u2@y.com")
        = .ok (mkInfo "A1" "U2" "u2@y.com") ∧
    (addAccount (mkStore [mkAccount "i1" (mkInfo "A1" "U1" "u1@x.com") true])
        (mkJwtCfg "A1" "U2" "u2@y.com") none "fresh" "2024-02-01").toOption.map
      (fun r => (r.2.1.accounts.length,
                 r.2.1.accounts.map (fun x => x.accountInfo.userId), r.1.id))
      = some (1, ["U2"], "i1") := by
  decide

/-- C2 (amended): `addAccount` merges the credential into an existing stored
account exactly when some stored account's `accountInfo.accountId` equals
the parsed credential's `accountId` (the `userId` and `email` fields are
never consulted, so an `accountId`-only match does overwrite the existing
record); when no stored `accountId` matches, a new account is appended with
the freshly generated id. -/
theorem addAccount_merges_iff_accountId_matches (store : AccountsStore)
    (cfg : CodexAuthConfig) (al : Option String) (freshId now : String)
    (info : AccountInfo) (hparse : parseAccountInfo cfg = .ok info) :
    ((∃ acc ∈ store.accounts, acc.accountInfo.accountId = info.accountId) →
      ∃ a s' e, addAccount store cfg al freshId now = .ok (a, s', e) ∧
        s'.accounts.length = store.accounts.length ∧
        s'.accounts.map (fun x => x.id) = store.accounts.map (fun x => x.id)) ∧
    ((∀ acc ∈ store.accounts, acc.accountInfo.accountId ≠ info.accountId) →
      ∃ a s' e, addAccount store cfg al freshId now = .ok (a, s', e) ∧
        s'.accounts = store.accounts ++ [a] ∧ a.id = freshId ∧
        a.accountInfo = info) := by
  constructor
  · intro hmatch
    cases hr : replaceFirstMatch (accountIdMatches info)
        (mergeRecord info al now) store.accounts with
    | none =>
      exfalso
      obtain ⟨acc, hacc, heq⟩ := hmatch
      have := (replaceFirstMatch_eq_none_iff _ _ _).mp hr acc hacc
      simp [accountIdMatches, heq] at this
    | some v =>
      obtain ⟨u, accounts'⟩ := v
      have hcomp : addAccount store cfg al freshId now =
          .ok (u, { store with accounts := accounts' },
               [Effect.saveAuth u.id cfg,
                Effect.saveStore { store with accounts := accounts' }]) := by
        simp only [addAccount, hparse, hr]
      have hids : accounts'.map (fun x => x.id) =
          store.accounts.map (fun x => x.id) :=
        replaceFirstMatch_map_eq _ _ hr _ (fun _ _ => rfl)
      refine ⟨u, _, _, hcomp, ?_, hids⟩
      have := congrArg List.length hids
      simpa using this
  · intro hall
    have hr : replaceFirstMatch (accountIdMatches info)
        (mergeRecord info al now) store.accounts = none := by
      rw [replaceFirstMatch_eq_none_iff]
      intro x hx
      simp [accountIdMatches]
      exact hall x hx
    have hcomp : addAccount store cfg al freshId now =
        .ok ({ id := freshId, «alias» := jsOrStr al (localPart info.email),
               accountInfo := info, usageInfo := none,
               isActive := store.accounts.isEmpty, createdAt := now,
               updatedAt := now },
             { store with accounts := store.accounts ++
                 [{ id := freshId, «alias» := jsOrStr al (localPart info.email),
                    accountInfo := info, usageInfo := none,
                    isActive := store.accounts.isEmpty, createdAt := now,
                    updatedAt := now }] },
             [Effect.saveAuth freshId cfg,
              Effect.saveStore { store with accounts := store.accounts ++
                 [{ id := freshId, «alias» := jsOrStr al (localPart info.email),
                    accountInfo := info, usageInfo := none,
                    isActive := store.accounts.isEmpty, createdAt := now,
                    updatedAt := now }] }]) := by
      simp only [addAccount, hparse, hr]
    exact ⟨_, _, _, hcomp, rfl, rfl, rfl⟩

/-- Witness for the C2 theorem: an `accountId` match exists, so the add is a
merge and the account count stays 1. -/
theorem addAccount_merges_iff_accountId_matches_witness :
    (addAccount (mkStore [mkAccount "i1" (mkInfo "A1" "U1" "e1") true])
        (mkJwtCfg "A1" "U2" "e2") none "f" "t").toOption.map
      (fun r => r.2.1.accounts.length) = some 1 := by
  obtain ⟨a, s', e, hok, hlen, -⟩ :=
    (addAccount_merges_iff_accountId_matches
        (mkStore [mkAccount "i1" (mkInfo "A1" "U1" "e1") true])
        (mkJwtCfg "A1" "U2" "e2") none "f" "t" (mkInfo "A1" "U2" "e2")
        (by decide)).1
      ⟨mkAccount "i1" (mkInfo "A1" "U1" "e1") true, by decide, by decide⟩
  rw [hok]
  have hl : s'.accounts.length = 1 := by rw [hlen]; rfl
  simp [Except.toOption, hl]

/-- Test fixture: the external credential observed by sync in the reused-id
scenario — its raw `tokens.account_id` is `"A1"` and its JWT decodes to
identity `{accountId "A1", userId "U2"}`. -/
def syncCred : CodexAuthConfig :=
  { OPENAI_API_KEY := none,
    tokens := { id_token := some (mkPayload "A1" "U2" "sync@x.com"),
                access_token := "", refresh_token := "", account_id := "A1" },
    last_refresh := "" }

/-- C3, counterexample.  Store: `{accountId "A1", userId "U1"}` (id `"i1"`)
and `{accountId "A1", userId "U2"}` (id `"i2"`), both inactive; the external
credential carries `{accountId "A1", userId "U2"}`.  The claim says only the
second account ends active; in fact the match loop of `syncCurrentAccount`
compares `accountInfo.accountId` alone, both records match `"A1"`, and both
end with `isActive = true` (the first account's flag contradicts "only the
second account").  The returned id is `"i2"` (the last match wins). -/
theorem scenarioB_first_account_also_activated :
    ((syncCurrentAccount (.ok syncCred)
        (mkStore [mkAccount "i1" (mkInfo "A1" "U1" "e1") false,
                  mkAccount "i2" (mkInfo "A1" "U2" "e2") false])).2.1.accounts.map
      (fun a => a.isActive)) = [true, true] ∧
    [true, true] ≠ [false, true] ∧
    (syncCurrentAccount (.ok syncCred)
        (mkStore [mkAccount "i1" (mkInfo "A1" "U1" "e1") false,
                  mkAccount "i2" (mkInfo "A1" "U2" "e2") false])).1 = some "i2" := by
  decide

/-- C3 (amended): in the reused-id scenario — store
`{accountId "A1", userId "U1"}`, `{accountId "A1", userId "U2"}` with any
initial `isActive` flags, external credential carrying
`{accountId "A1", userId "U2"}` — `syncCurrentAccount` sets `isActive = true`
on **both** accounts (both match on `accountId`) and returns the second
account's id. -/
theorem scenarioB_reused_id_activates_both (b1 b2 : Bool) :
    (syncCurrentAccount (.ok syncCred)
        (mkStore [mkAccount "i1" (mkInfo "A1" "U1" "e1") b1,
                  mkAccount "i2" (mkInfo "A1" "U2" "e2") b2])).1 = some "i2" ∧
    ((syncCurrentAccount (.ok syncCred)
        (mkStore [mkAccount "i1" (mkInfo "A1" "U1" "e1") b1,
                  mkAccount "i2" (mkInfo "A1" "U2" "e2") b2])).2.1.accounts.map
      (fun a => a.isActive)) = [true, true] := by
  cases b1 <;> cases b2 <;> decide

/-- C4: when `getCurrentAuthAccountId` observes no usable account id — the
credential file is absent or unreadable (any backend read failure maps to
`none`), or the read credential yields no id — `syncCurrentAccount` clears
`isActive` on every account, persists the store exactly when some account
was active (some flag actually changed), returns `null`, and surfaces no
error. -/
theorem sync_absent_clears_and_returns_null
    (readResult : Except String CodexAuthConfig) (store : AccountsStore)
    (h : jsFalsyId (getCurrentAuthAccountId readResult) = true) :
    (∀ err : String, getCurrentAuthAccountId (.error err) = none) ∧
    (syncCurrentAccount readResult store).1 = none ∧
    (syncCurrentAccount readResult store).2.1.accounts
        = store.accounts.map deactivate ∧
    ((syncCurrentAccount readResult store).2.2 =
      if store.accounts.any (fun a => a.isActive) then
        [Effect.saveStore (syncCurrentAccount readResult store).2.1] else []) := by
  refine ⟨fun err => rfl, ?_, ?_, ?_⟩ <;>
    simp [syncCurrentAccount, h, clearActive_fst, clearActive_snd]

/-- Witness for the C4 theorem: an unreadable credential file over a store
with one active account — the flag is cleared, the store is persisted,
`null` is returned. -/
theorem sync_absent_clears_witness :
    getCurrentAuthAccountId (.error "ENOENT") = none ∧
    (syncCurrentAccount (.error "ENOENT")
        (mkStore [mkAccount "i1" (mkInfo "A1" "U1" "e1") true])).1 = none ∧
    (syncCurrentAccount (.error "ENOENT")
        (mkStore [mkAccount "i1" (mkInfo "A1" "U1" "e1") true])).2.1.accounts
      = (mkStore [mkAccount "i1" (mkInfo "A1" "U1" "e1") true]).accounts.map
          deactivate ∧
    (syncCurrentAccount (.error "ENOENT")
        (mkStore [mkAccount "i1" (mkInfo "A1" "U1" "e1") true])).2.2
      = [Effect.saveStore (syncCurrentAccount (.error "ENOENT")
          (mkStore [mkAccount "i1" (mkInfo "A1" "U1" "e1") true])).2.1] := by
  have h := sync_absent_clears_and_returns_null (.error "ENOENT")
    (mkStore [mkAccount "i1" (mkInfo "A1" "U1" "e1") true]) (by decide)
  refine ⟨h.1 "ENOENT", h.2.1, h.2.2.1, ?_⟩
  rw [h.2.2.2]
  decide

/-- C5: `syncCurrentAccount` is idempotent — a second call with the external
credential state and the store produced by the first call returns the same
value, leaves the store unchanged, and emits no persistence write. -/
theorem sync_idempotent (readResult : Except String CodexAuthConfig)
    (store : AccountsStore) :
    (syncCurrentAccount readResult (syncCurrentAccount readResult store).2.1).1
        = (syncCurrentAccount readResult store).1 ∧
    (syncCurrentAccount readResult (syncCurrentAccount readResult store).2.1).2.1
        = (syncCurrentAccount readResult store).2.1 ∧
    (syncCurrentAccount readResult (syncCurrentAccount readResult store).2.1).2.2
        = [] := by
  by_cases hf : jsFalsyId (getCurrentAuthAccountId readResult) = true
  · refine ⟨?_, ?_, ?_⟩ <;>
      simp [syncCurrentAccount, hf, clearActive_fst, clearActive_snd,
        List.map_map, List.any_map, Function.comp_def, deactivate]
  · refine ⟨?_, ?_, ?_⟩ <;>
      simp [syncCurrentAccount, hf, syncVisit_accounts, syncVisit_changed,
        syncVisit_matched_map, List.map_map, List.any_map, Function.comp_def,
        setActiveIff]

/-- C6: calling `addAccount` twice with credentials that parse to the same
`accountId` (in particular with credentials normalizing to the same
identity) leaves the account count after the second call equal to the count
after the first, allocates no new id on the second call (the stored id list
is unchanged and the returned record keeps the first call's id), and the
matched record's `accountInfo` and `updatedAt` are the second call's parsed
profile and timestamp. -/
theorem addAccount_merge_idempotent (store : AccountsStore)
    (cfg1 cfg2 : CodexAuthConfig) (al1 al2 : Option String)
    (f1 t1 f2 t2 : String) (i1 i2 : AccountInfo)
    (a1 : StoredAccount) (s1 : AccountsStore) (e1 : List Effect)
    (h1 : parseAccountInfo cfg1 = .ok i1)
    (h2 : parseAccountInfo cfg2 = .ok i2)
    (hsame : i1.accountId = i2.accountId)
    (hadd : addAccount store cfg1 al1 f1 t1 = .ok (a1, s1, e1)) :
    ∃ a2 s2 e2, addAccount s1 cfg2 al2 f2 t2 = .ok (a2, s2, e2) ∧
      s2.accounts.length = s1.accounts.length ∧
      s2.accounts.map (fun x => x.id) = s1.accounts.map (fun x => x.id) ∧
      a2.id = a1.id ∧ a2.accountInfo = i2 ∧ a2.updatedAt = t2 := by
  have hp2 : ∀ x, accountIdMatches i2 x = accountIdMatches i1 x := by
    intro x; simp [accountIdMatches, ← hsame]
  simp only [addAccount, h1] at hadd
  cases hr : replaceFirstMatch (accountIdMatches i1)
      (mergeRecord i1 al1 t1) store.accounts with
  | some v =>
    obtain ⟨u, accounts'⟩ := v
    rw [hr] at hadd
    simp only [Except.ok.injEq, Prod.mk.injEq] at hadd
    obtain ⟨hu, hs, -⟩ := hadd
    obtain ⟨l1, a0, l2, hsplit, hl1, hpa0, hu', haccs⟩ :=
      replaceFirstMatch_eq_some _ _ _ _ _ hr
    have hacc : s1.accounts = l1 ++ mergeRecord i1 al1 t1 a0 :: l2 := by
      rw [← hs, haccs]
    have hr2 : replaceFirstMatch (accountIdMatches i2) (mergeRecord i2 al2 t2)
        s1.accounts =
        some (mergeRecord i2 al2 t2 (mergeRecord i1 al1 t1 a0),
              l1 ++ mergeRecord i2 al2 t2 (mergeRecord i1 al1 t1 a0) :: l2) := by
      rw [hacc]
      refine replaceFirstMatch_of_split _ _ l1 l2 _ ?_ ?_
      · intro x hx; rw [hp2]; exact hl1 x hx
      · simp [accountIdMatches, mergeRecord, ← hsame]
    set m2 := mergeRecord i2 al2 t2 (mergeRecord i1 al1 t1 a0) with hm2
    have hcomp : addAccount s1 cfg2 al2 f2 t2 =
        .ok (m2, { s1 with accounts := l1 ++ m2 :: l2 },
             [Effect.saveAuth m2.id cfg2,
              Effect.saveStore { s1 with accounts := l1 ++ m2 :: l2 }]) := by
      simp only [addAccount, h2, hr2]
    refine ⟨_, _, _, hcomp, ?_, ?_, ?_, rfl, rfl⟩
    · rw [hacc]; simp
    · rw [hacc]; simp [hm2, mergeRecord]
    · rw [← hu, hu']; rfl
  | none =>
    rw [hr] at hadd
    simp only [Except.ok.injEq, Prod.mk.injEq] at hadd
    obtain ⟨hu, hs, -⟩ := hadd
    have hall : ∀ x ∈ store.accounts, accountIdMatches i1 x = false :=
      (replaceFirstMatch_eq_none_iff _ _ _).mp hr
    have hacc : s1.accounts = store.accounts ++ [a1] := by
      rw [← hs, hu]
    have ha1 : a1.accountInfo = i1 := by rw [← hu]
    have hr2 : replaceFirstMatch (accountIdMatches i2) (mergeRecord i2 al2 t2)
        s1.accounts =
        some (mergeRecord i2 al2 t2 a1,
              store.accounts ++ mergeRecord i2 al2 t2 a1 :: []) := by
      rw [hacc]
      have := replaceFirstMatch_of_split (accountIdMatches i2)
        (mergeRecord i2 al2 t2) store.accounts [] a1
        (fun x hx => by rw [hp2]; exact hall x hx)
        (by simp [accountIdMatches, ha1, ← hsame])
      simpa using this
    set m2 := mergeRecord i2 al2 t2 a1 with hm2
    have hcomp : addAccount s1 cfg2 al2 f2 t2 =
        .ok (m2, { s1 with accounts := store.accounts ++ m2 :: [] },
             [Effect.saveAuth m2.id cfg2,
              Effect.saveStore { s1 with accounts := store.accounts ++ m2 :: [] }]) := by
      simp only [addAccount, h2, hr2]
    refine ⟨_, _, _, hcomp, ?_, ?_, rfl, rfl, rfl⟩
    · rw [hacc]; simp
    · rw [hacc]; simp [hm2, mergeRecord]

/-- Test fixture: the record the witness's first `addAccount` call creates
(auto-activated first account, alias defaulted to the email's local part). -/
def wAcc1 : StoredAccount :=
  { id := "f1", «alias» := "e1", accountInfo := mkInfo "A1" "U1" "e1",
    usageInfo := none, isActive := true, createdAt := "t1", updatedAt := "t1" }

/-- Witness for the C6 theorem: the same credential added twice into an
empty store — the second call keeps the single record and its id, and stamps
the second call's timestamp. -/
theorem addAccount_merge_idempotent_witness :
    (addAccount (mkStore [wAcc1]) (mkJwtCfg "A1" "U1" "e1") none "f2" "t2").toOption.map
      (fun r => (r.2.1.accounts.length, r.1.id, r.1.updatedAt))
      = some (1, "f1", "t2") := by
  obtain ⟨a2, s2, e2, hok, hlen, hids, hid2, hinfo, hupd⟩ :=
    addAccount_merge_idempotent (mkStore []) (mkJwtCfg "A1" "U1" "e1")
      (mkJwtCfg "A1" "U1" "e1") none none "f1" "t1" "f2" "t2"
      (mkInfo "A1" "U1" "e1") (mkInfo "A1" "U1" "e1")
      wAcc1 (mkStore [wAcc1])
      [Effect.saveAuth "f1" (mkJwtCfg "A1" "U1" "e1"),
       Effect.saveStore (mkStore [wAcc1])]
      (by decide) (by decide) rfl (by decide)
  rw [hok]
  simp only [Except.toOption, Option.map, Option.some.injEq, Prod.mk.injEq]
  refine ⟨?_, ?_, hupd⟩
  · rw [hlen]; rfl
  · rw [hid2]; rfl

/-- C7, counterexample.  `removeAccount` performs no existence check: called
with id `"zzz"`, which matches no stored account, it completes without any
error, leaves the accounts unchanged, and still persists the store and
requests deletion of the (nonexistent) per-account secret — refuting the
claim that `removeAccount` fails with `AccountNotFound` on an unknown id
(the source's `removeAccount` has no throw path at all). -/
theorem removeAccount_succeeds_on_unknown_id :
    (removeAccount (mkStore [mkAccount "i1" (mkInfo "A1" "U1" "e1") true]) "zzz")
      = (mkStore [mkAccount "i1" (mkInfo "A1" "U1" "e1") true],
         [Effect.saveStore (mkStore [mkAccount "i1" (mkInfo "A1" "U1" "e1") true]),
          Effect.deleteAuth "zzz"]) := by
  decide

/-- C7 (amended): on an id equal to no stored account's id,
`switchToAccount` fails with the `Account not found` error, surfaced to the
caller (not retried or absorbed); `removeAccount` does **not** fail — it
leaves the stored accounts unchanged, still persists the store, and still
requests deletion of the per-account secret. -/
theorem unknown_id_switch_fails_remove_silent (store : AccountsStore)
    (authStore : String → CodexAuthConfig) (accountId : String)
    (h : ∀ acc ∈ store.accounts, acc.id ≠ accountId) :
    switchToAccount store authStore accountId = .error "Account not found" ∧
    (removeAccount store accountId).1 = store ∧
    (removeAccount store accountId).2 =
      [Effect.saveStore store, Effect.deleteAuth accountId] := by
  have hfind : store.accounts.find? (fun acc => acc.id == accountId) = none := by
    rw [List.find?_eq_none]
    intro x hx
    simp [h x hx]
  have hfilter : store.accounts.filter (fun acc => acc.id != accountId)
      = store.accounts := by
    rw [List.filter_eq_self]
    intro x hx
    simp [h x hx]
  refine ⟨?_, ?_, ?_⟩
  · simp [switchToAccount, hfind]
  · simp [removeAccount, hfilter]
  · simp [removeAccount, hfilter]

/-- Witness for the C7 theorem at a concrete store and unknown id. -/
theorem unknown_id_switch_fails_remove_silent_witness :
    switchToAccount (mkStore [mkAccount "i1" (mkInfo "A1" "U1" "e1") true])
        (fun _ => mkRawCfg "") "missing" = .error "Account not found" ∧
    (removeAccount (mkStore [mkAccount "i1" (mkInfo "A1" "U1" "e1") true])
        "missing").1 = mkStore [mkAccount "i1" (mkInfo "A1" "U1" "e1") true] ∧
    (removeAccount (mkStore [mkAccount "i1" (mkInfo "A1" "U1" "e1") true])
        "missing").2 =
      [Effect.saveStore (mkStore [mkAccount "i1" (mkInfo "A1" "U1" "e1") true]),
       Effect.deleteAuth "missing"] :=
  unknown_id_switch_fails_remove_silent
    (mkStore [mkAccount "i1" (mkInfo "A1" "U1" "e1") true])
    (fun _ => mkRawCfg "") "missing" (by decide)

/-- C8, counterexample.  A credential whose JWT fails to decode and whose
raw payload carries no usable id (`tokens.account_id` is empty; the raw
credential shape has no email field): `addAccount` throws the decode error
`Invalid JWT token` — not a `MissingAccountIdentity` error, which does not
exist in the source (nor does any `allowMissingIdentity` option); the error
propagates before any account is created or persisted. -/
theorem addAccount_throws_invalid_jwt_not_missing_identity :
    addAccount (mkStore []) (mkRawCfg "") none "f" "t"
        = .error "Invalid JWT token" ∧
    "Invalid JWT token" ≠ "MissingAccountIdentity" := by
  decide

/-- C8 (amended): for every store and every credential whose JWT fails to
decode (whatever the raw payload carries), `addAccount` propagates the
thrown `Invalid JWT token` error: the call returns before any lookup,
mutation or persistence effect, so no account is created and nothing is
persisted. -/
theorem addAccount_decode_failure_throws (store : AccountsStore)
    (cfg : CodexAuthConfig) (al : Option String) (freshId now : String)
    (h : cfg.tokens.id_token = none) :
    addAccount store cfg al freshId now = .error "Invalid JWT token" := by
  simp [addAccount, parseAccountInfo, h]

/-- Witness for the C8 theorem at a concrete credential with an undecodable
JWT. -/
theorem addAccount_decode_failure_throws_witness :
    addAccount (mkStore [mkAccount "i1" (mkInfo "A1" "U1" "e1") true])
        (mkRawCfg "RAW") none "f" "t" = .error "Invalid JWT token" :=
  addAccount_decode_failure_throws
    (mkStore [mkAccount "i1" (mkInfo "A1" "U1" "e1") true])
    (mkRawCfg "RAW") none "f" "t" rfl

theorem migrateAccounts_fst (l : List LegacyStoredAccount) :
    (migrateAccounts l).1 = l.map stripAuthConfig := by
  induction l with
  | nil => rfl
  | cons a rest ih =>
    rcases hm : migrateAccounts rest with ⟨rest', effs, ns⟩
    rw [hm] at ih
    simp only [] at ih
    cases ha : a.authConfig <;> simp [migrateAccounts, hm, ha, ih]

theorem migrateAccounts_effects (l : List LegacyStoredAccount) :
    (migrateAccounts l).2.1 =
      l.filterMap (fun a => a.authConfig.map
        (fun cfg => Effect.saveAuth a.id cfg)) := by
  induction l with
  | nil => rfl
  | cons a rest ih =>
    rcases hm : migrateAccounts rest with ⟨rest', effs, ns⟩
    rw [hm] at ih
    simp only [] at ih
    cases ha : a.authConfig <;> simp [migrateAccounts, hm, ha, ih, List.filterMap_cons]

theorem migrateAccounts_needsSave (l : List LegacyStoredAccount) :
    (migrateAccounts l).2.2 = l.any (fun a => a.authConfig.isSome) := by
  induction l with
  | nil => rfl
  | cons a rest ih =>
    rcases hm : migrateAccounts rest with ⟨rest', effs, ns⟩
    rw [hm] at ih
    simp only [] at ih
    cases ha : a.authConfig <;> simp [migrateAccounts, hm, ha, ih]

/-- C9: `loadAccountsStore` migrates every legacy record carrying an
embedded secret: each such secret is handed to the per-account credential
store keyed by that record's id; every returned record is the stripped form
of the persisted one (so no record of the returned store carries an embedded
secret — the returned record type has no secret field); and the normalized
store is re-saved exactly when at least one record required migration. -/
theorem loadAccountsStore_migrates (raw : LegacyAccountsStore) :
    (loadAccountsStore raw).1.accounts = raw.accounts.map stripAuthConfig ∧
    (∀ a ∈ raw.accounts, ∀ cfg, a.authConfig = some cfg →
      Effect.saveAuth a.id cfg ∈ (loadAccountsStore raw).2) ∧
    ((∃ a ∈ raw.accounts, a.authConfig ≠ none) ↔
      Effect.saveStore (loadAccountsStore raw).1 ∈ (loadAccountsStore raw).2) := by
  rcases hm : migrateAccounts raw.accounts with ⟨acc', effs, ns⟩
  have h1 : acc' = raw.accounts.map stripAuthConfig := by
    have := migrateAccounts_fst raw.accounts
    rw [hm] at this
    simpa using this
  have h2 : effs = raw.accounts.filterMap
      (fun a => a.authConfig.map (fun cfg => Effect.saveAuth a.id cfg)) := by
    have := migrateAccounts_effects raw.accounts
    rw [hm] at this
    simpa using this
  have h3 : ns = raw.accounts.any (fun a => a.authConfig.isSome) := by
    have := migrateAccounts_needsSave raw.accounts
    rw [hm] at this
    simpa using this
  refine ⟨?_, ?_, ?_⟩
  · simp [loadAccountsStore, hm, h1]
  · intro a ha cfg hcfg
    simp only [loadAccountsStore, hm, List.mem_append]
    left
    rw [h2]
    exact List.mem_filterMap.mpr ⟨a, ha, by simp [hcfg]⟩
  · constructor
    · intro hex
      have hns : ns = true := by
        rw [h3, List.any_eq_true]
        obtain ⟨a, ha, hne⟩ := hex
        exact ⟨a, ha, by simpa [Option.isSome_iff_ne_none] using hne⟩
      simp [loadAccountsStore, hm, hns]
    · intro hmem
      simp only [loadAccountsStore, hm, List.mem_append] at hmem
      rcases hmem with hmem | hmem
      · exfalso
        rw [h2] at hmem
        obtain ⟨a, ha, habs⟩ := List.mem_filterMap.mp hmem
        cases hc : a.authConfig <;> simp [hc] at habs
      · cases hns : ns with
        | false => rw [hns] at hmem; simp at hmem
        | true =>
          rw [h3, List.any_eq_true] at hns
          obtain ⟨a, ha, hsome⟩ := hns
          exact ⟨a, ha, by simpa [Option.isSome_iff_ne_none] using hsome⟩

/-- Test fixture: a persisted legacy record still embedding its secret. -/
def wLegacy : LegacyStoredAccount :=
  { id := "i1", «alias» := "a", accountInfo := mkInfo "A1" "U1" "e1",
    usageInfo := none, isActive := true, createdAt := "c", updatedAt := "u",
    authConfig := some (mkRawCfg "A1") }

/-- Test fixture: a persisted store holding the one legacy record. -/
def wRaw : LegacyAccountsStore :=
  { version := "1.0.0", accounts := [wLegacy], config := mkConfig }

/-- Witness for the C9 theorem at a concrete legacy store: the secret is
handed over keyed by `"i1"`, the record is stripped, and the store is
re-saved. -/
theorem loadAccountsStore_migrates_witness :
    (loadAccountsStore wRaw).1.accounts = [stripAuthConfig wLegacy] ∧
    Effect.saveAuth "i1" (mkRawCfg "A1") ∈ (loadAccountsStore wRaw).2 ∧
    Effect.saveStore (loadAccountsStore wRaw).1 ∈ (loadAccountsStore wRaw).2 := by
  have h := loadAccountsStore_migrates wRaw
  exact ⟨h.1, h.2.1 wLegacy (by decide) (mkRawCfg "A1") rfl,
         h.2.2.mp ⟨wLegacy, by decide, by decide⟩⟩

/-- C10: when `addAccount` merges into an existing stored account (some
stored `accountId` equals the parsed credential's), the merged record is the
first matching record with only `accountInfo`, `updatedAt` and the alias
overwritten (the alias takes the provided value when truthy, else keeps the
old one); `id`, `createdAt`, `isActive` and `usageInfo` are unchanged, and
every other stored account — the records before and after the first match —
is left exactly as it was. -/
theorem addAccount_merge_frame (store : AccountsStore) (cfg : CodexAuthConfig)
    (al : Option String) (freshId now : String) (info : AccountInfo)
    (hparse : parseAccountInfo cfg = .ok info)
    (hmatch : ∃ acc ∈ store.accounts, acc.accountInfo.accountId = info.accountId) :
    ∃ l1 a0 l2, store.accounts = l1 ++ a0 :: l2 ∧
      (∀ x ∈ l1, x.accountInfo.accountId ≠ info.accountId) ∧
      a0.accountInfo.accountId = info.accountId ∧
      addAccount store cfg al freshId now =
        .ok (mergeRecord info al now a0,
             { store with accounts := l1 ++ mergeRecord info al now a0 :: l2 },
             [Effect.saveAuth a0.id cfg,
              Effect.saveStore { store with accounts := l1 ++ mergeRecord info al now a0 :: l2 }]) ∧
      (mergeRecord info al now a0).id = a0.id ∧
      (mergeRecord info al now a0).createdAt = a0.createdAt ∧
      (mergeRecord info al now a0).isActive = a0.isActive ∧
      (mergeRecord info al now a0).usageInfo = a0.usageInfo ∧
      (mergeRecord info al now a0).accountInfo = info ∧
      (mergeRecord info al now a0).updatedAt = now ∧
      (mergeRecord info al now a0).«alias» = jsOrStr al a0.«alias» := by
  cases hr : replaceFirstMatch (accountIdMatches info)
      (mergeRecord info al now) store.accounts with
  | none =>
    exfalso
    obtain ⟨acc, hacc, heq⟩ := hmatch
    have := (replaceFirstMatch_eq_none_iff _ _ _).mp hr acc hacc
    simp [accountIdMatches, heq] at this
  | some v =>
    obtain ⟨u, accounts'⟩ := v
    obtain ⟨l1, a0, l2, hsplit, hl1, hpa0, hu', haccs⟩ :=
      replaceFirstMatch_eq_some _ _ _ _ _ hr
    subst hu'
    subst haccs
    refine ⟨l1, a0, l2, hsplit, ?_, ?_, ?_, rfl, rfl, rfl, rfl, rfl, rfl, rfl⟩
    · intro x hx
      have := hl1 x hx
      simpa [accountIdMatches] using this
    · simpa [accountIdMatches] using hpa0
    · simp [addAccount, hparse, hr, mergeRecord]

/-- Witness for the C10 theorem: a concrete merge keeps the second call's
profile and timestamp on the returned record. -/
theorem addAccount_merge_frame_witness :
    (addAccount (mkStore [mkAccount "i1" (mkInfo "A1" "U1" "e1") true])
        (mkJwtCfg "A1" "U2" "e2") none "f" "t").toOption.map
      (fun r => (r.1.accountInfo, r.1.updatedAt))
      = some (mkInfo "A1" "U2" "e2", "t") := by
  obtain ⟨l1, a0, l2, hsplit, hl1, hpa0, hok, hrest⟩ :=
    addAccount_merge_frame (mkStore [mkAccount "i1" (mkInfo "A1" "U1" "e1") true])
      (mkJwtCfg "A1" "U2" "e2") none "f" "t" (mkInfo "A1" "U2" "e2") (by decide)
      ⟨mkAccount "i1" (mkInfo "A1" "U1" "e1") true, by decide, by decide⟩
  rw [hok]
  simp [Except.toOption, mergeRecord]
